import Mathlib

/-!
Verification development for the breatheasy repository: a shallow embedding
of the browser client's pure helpers (src/client/src/utils/formatters.ts,
src/client/src/components/Dashboard.tsx) and of the telemetry
acquisition / broker-publishing bridge described by the design document
(the bridge source itself is not part of the checked-in tree, so its
operations are modelled from the spec).
-/

namespace Breatheasy

/-! ## Numeric rendering helpers

JavaScript numbers are modelled as exact rationals.  `toFixed(1)` and
`Math.round` are modelled by rounding half-up (toward positive infinity on
ties), which agrees with the JavaScript results on all values relevant
here (both example values of the spec round identically in binary
floating point and in exact arithmetic). -/

/-- Model of JavaScript `Math.round`: round to the nearest integer,
half-up. -/
def jsRound (q : ℚ) : ℤ := ⌊q + 1 / 2⌋

/-- Rounding step of JavaScript `x.toFixed(1)`: the value in tenths,
rounded to the nearest tenth, half-up. -/
def roundTenths (q : ℚ) : ℤ := ⌊q * 10 + 1 / 2⌋

/-- Decimal rendering of an integer number of tenths with exactly one
digit after the point, e.g. `235 ↦ "23.5"`. -/
def renderTenths (n : ℤ) : String :=
  (if n < 0 then "-" else "") ++
    toString (n.natAbs / 10) ++ "." ++ toString (n.natAbs % 10)

/-- Model of JavaScript `x.toFixed(1)`: round to one decimal place and
render with exactly one digit after the point. -/
def toFixed1 (q : ℚ) : String := renderTenths (roundTenths q)

/-! ## src/client/src/utils/formatters.ts -/

/-- From `formatters.ts`: `formatTemperature` renders
`temp.toFixed(1)` followed by the unit suffix. -/
def formatTemperature (temp : ℚ) : String := toFixed1 temp ++ "°C"

/-- From `formatters.ts`: `formatHumidity`. -/
def formatHumidity (humidity : ℚ) : String := toFixed1 humidity ++ "%"

/-- From `formatters.ts`: `formatRelativeTime`.  Timestamps are modelled
as integer epoch milliseconds; `Math.floor((now - time) / 1000)` is
floor division, i.e. `Int.ediv` for the positive divisor 1000. -/
def formatRelativeTime (nowMs timeMs : ℤ) : String :=
  let diffInSeconds : ℤ := (nowMs - timeMs) / 1000
  if diffInSeconds < 60 then "Just now"
  else if diffInSeconds < 3600 then
    toString (diffInSeconds / 60) ++ "m ago"
  else if diffInSeconds < 86400 then
    toString (diffInSeconds / 3600) ++ "h ago"
  else
    toString (diffInSeconds / 86400) ++ "d ago"

/-- From `formatters.ts`: `formatAirQuality` switches on the sensor type
string; the default branch stringifies the raw value. -/
def formatAirQuality (value : ℚ) (type : String) : String :=
  if type = "pm25" then toFixed1 value ++ " µg/m³"
  else if type = "pm10" then toFixed1 value ++ " µg/m³"
  else if type = "co2" then toString (jsRound value) ++ " ppm"
  else if type = "voc" then toFixed1 value ++ " ppb"
  else toString value

/-! ## src/client/src/components/Dashboard.tsx -/

/-- `SensorReading` from src/client/src/types/index.ts (the optional
`sensor_id` is omitted; timestamps are modelled as integer epoch
milliseconds, which is what comparing `new Date(...)` values uses). -/
structure SensorReading where
  id : ℤ
  sensor_type : String
  value : ℚ
  unit : String
  timestamp : ℤ
deriving DecidableEq, Repr

/-- One step of the `reduce` in Dashboard's `latestByType`: keep the
stored reading unless the slot is empty or the new reading's timestamp is
strictly greater. -/
def latestByTypeStep (acc : String → Option SensorReading)
    (r : SensorReading) : String → Option SensorReading :=
  match acc r.sensor_type with
  | none => fun t => if t = r.sensor_type then some r else acc t
  | some prev =>
      if prev.timestamp < r.timestamp then
        fun t => if t = r.sensor_type then some r else acc t
      else acc

/-- Dashboard's `latestByType`: group readings by `sensor_type`, keeping
per type the reading with the strictly greatest timestamp seen so far. -/
def latestByType (readings : List SensorReading) :
    String → Option SensorReading :=
  readings.foldl latestByTypeStep (fun _ => none)

/-! ## The broker-publishing bridge

The bridge itself (Connection Manager, Discovery Publisher, State
Publisher, Sensor Poller, Sensor Registry) is not present in the
checked-in tree; the definitions below are modelled from the design
document (spec sections 2 through 8). -/

/-- Modelled from the spec: a sensor's `value_precision` rule, either a
fixed one-decimal rounding or integer rounding (used for CO2 counts). -/
inductive Precision where
  | oneDecimal
  | integer
deriving DecidableEq, Repr

/-- Modelled from the spec (section 3): the immutable `SensorDefinition`
record of the Sensor Registry. -/
structure SensorDefinition where
  id : String
  device_class : String
  unit : String
  friendly_name : String
  value_precision : Precision
  state_topic : String
  discovery_topic : String
  object_id : String
deriving DecidableEq, Repr

/-- Modelled from the spec (section 3): a `Reading` produced by the
Poller. -/
structure Reading where
  sensor_id : String
  value : ℚ
  captured_at : ℤ
deriving DecidableEq, Repr

/-- An outbound broker message: topic, payload and retained flag. -/
structure Msg where
  topic : String
  payload : String
  retained : Bool
deriving DecidableEq, Repr

/-- Modelled from the spec (section 6): the startup configuration the
bridge publishes under (`<namespace>`, `<discovery_prefix>` and the
shared device descriptor). -/
structure BridgeConfig where
  ns : String
  discPref : String
  deviceName : String
  deviceModel : String
  deviceIds : String
deriving DecidableEq, Repr

/-- Modelled from the spec (section 6): the availability topic is
`<namespace>/status`. -/
def availTopic (cfg : BridgeConfig) : String := cfg.ns ++ "/status"

/-- The retained `"online"` availability message. -/
def onlineMsg (cfg : BridgeConfig) : Msg := ⟨availTopic cfg, "online", true⟩

/-- The retained `"offline"` availability message (also the
pre-registered last-will). -/
def offlineMsg (cfg : BridgeConfig) : Msg := ⟨availTopic cfg, "offline", true⟩

/-- Modelled from the spec (sections 4.2 and 6): the JSON discovery
payload, a pure function of the `SensorDefinition` and the static
configuration, with keys `name`, `device_class`, `unit_of_measurement`,
`state_topic`, `unique_id`, `availability_topic` and the shared `device`
descriptor. -/
def discoveryPayload (cfg : BridgeConfig) (d : SensorDefinition) : String :=
  "\x7b\"name\":\"" ++ d.friendly_name ++
    "\",\"device_class\":\"" ++ d.device_class ++
    "\",\"unit_of_measurement\":\"" ++ d.unit ++
    "\",\"state_topic\":\"" ++ d.state_topic ++
    "\",\"unique_id\":\"" ++ d.id ++
    "\",\"availability_topic\":\"" ++ availTopic cfg ++
    "\",\"device\":\x7b\"identifiers\":[\"" ++ cfg.deviceIds ++
    "\"],\"name\":\"" ++ cfg.deviceName ++
    "\",\"model\":\"" ++ cfg.deviceModel ++ "\"\x7d\x7d"

/-- Modelled from the spec (section 3): the retained `DiscoveryMessage`
derived deterministically from a `SensorDefinition`. -/
def buildDiscovery (cfg : BridgeConfig) (d : SensorDefinition) : Msg :=
  ⟨d.discovery_topic, discoveryPayload cfg d, true⟩

/-- Modelled from the spec (sections 4.3 and 6): the state payload is a
plain string-encoded number rounded per the definition's precision
rule. -/
def statePayload (d : SensorDefinition) (v : ℚ) : String :=
  match d.value_precision with
  | .oneDecimal => toFixed1 v
  | .integer => toString (jsRound v)

/-- Modelled from the spec (section 6): precision rule per sensor type
(temperature, humidity, pm2.5, pm10, voc: one decimal place; CO2:
nearest integer). -/
def typePrecision (t : String) : Precision :=
  if t = "co2" then .integer else .oneDecimal

/-- The non-retained state message for a fresh reading. -/
def stateMsg (d : SensorDefinition) (r : Reading) : Msg :=
  ⟨d.state_topic, statePayload d r.value, false⟩

/-- Modelled from the spec (section 3): the `BrokerSession` states. -/
inductive SessionState where
  | Disconnected
  | Connecting
  | Connected
  | Reconnecting
deriving DecidableEq, Repr

/-- The Connection Manager's observable state: the session state, the
ordered list of messages delivered to the broker (including a fired
last-will), and whether `shutdown()` has completed. -/
structure BridgeState where
  session : SessionState
  log : List Msg
  halted : Bool
deriving DecidableEq, Repr

/-- Events driving the Connection Manager's state machine. -/
inductive BridgeEvent where
  | connectOk
  | connectFail
  | publishReading (r : Reading) (d : SensorDefinition)
  | shutdown
deriving DecidableEq, Repr

/-- Modelled from the spec (sections 4.1 to 4.3): one transition of the
bridge.  On a successful (re)connect the manager publishes retained
`"online"` and then fires `onStateChange(Connected)`, which makes the
Discovery Publisher re-announce every sensor; on a drop while
`Connected` the broker fires the pre-registered last-will; state-class
publishes are delivered only while `Connected` and are otherwise silent
no-ops; `shutdown` publishes retained `"offline"` and closes. -/
def bridgeStep (cfg : BridgeConfig) (defs : List SensorDefinition)
    (s : BridgeState) : BridgeEvent → BridgeState
  | .connectOk =>
      if s.halted then s
      else if s.session = .Connected then s
      else
        { session := .Connected,
          log := s.log ++ onlineMsg cfg :: defs.map (buildDiscovery cfg),
          halted := false }
  | .connectFail =>
      if s.halted then s
      else if s.session = .Connected then
        { s with session := .Reconnecting, log := s.log ++ [offlineMsg cfg] }
      else { s with session := .Reconnecting }
  | .publishReading r d =>
      if s.halted then s
      else if s.session = .Connected then
        { s with log := s.log ++ [stateMsg d r] }
      else s
  | .shutdown =>
      if s.halted then s
      else
        { session := .Disconnected, log := s.log ++ [offlineMsg cfg],
          halted := true }

/-- The state after `connect(config)` registered the last-will and
started the handshake: `Connecting`, nothing published yet. -/
def initState : BridgeState := ⟨.Connecting, [], false⟩

/-- Run the bridge over a list of events. -/
def bridgeRun (cfg : BridgeConfig) (defs : List SensorDefinition)
    (s : BridgeState) (evs : List BridgeEvent) : BridgeState :=
  evs.foldl (bridgeStep cfg defs) s

/-- The last retained payload on the availability topic, folded from an
explicit accumulator. -/
def lastAvailFrom (cfg : BridgeConfig) (acc : Option String)
    (log : List Msg) : Option String :=
  log.foldl
    (fun a m =>
      if m.topic = availTopic cfg ∧ m.retained = true then some m.payload
      else a)
    acc

/-- The broker-side retained value of the availability topic after a
given publish log. -/
def lastAvail (cfg : BridgeConfig) (log : List Msg) : Option String :=
  lastAvailFrom cfg none log

/-- Number of transitions into `Connected` along an event list. -/
def connectsInto (cfg : BridgeConfig) (defs : List SensorDefinition)
    (s : BridgeState) : List BridgeEvent → ℕ
  | [] => 0
  | e :: evs =>
      (if s.session ≠ .Connected ∧
          (bridgeStep cfg defs s e).session = .Connected then 1 else 0) +
        connectsInto cfg defs (bridgeStep cfg defs s e) evs

/-- Number of messages published at a definition's discovery topic. -/
def discCount (d : SensorDefinition) : List Msg → ℕ
  | [] => 0
  | m :: rest =>
      (if m.topic = d.discovery_topic then 1 else 0) + discCount d rest

/-- Whether an `"online"` availability message occurs strictly before
some discovery message for `d` in a publish log. -/
def onlineThenDiscovery (cfg : BridgeConfig) (d : SensorDefinition) :
    List Msg → Bool
  | [] => false
  | m :: rest =>
      (decide (m = onlineMsg cfg) &&
        rest.any fun x => decide (x = buildDiscovery cfg d)) ||
      onlineThenDiscovery cfg d rest

/-- Primitive transport actions of the Connection Manager, used to state
intra-call ordering. -/
inductive MgrAction where
  | registerWill (m : Msg)
  | openTransport
  | publishMsg (m : Msg)
  | flushAcks
  | closeTransport
deriving DecidableEq, Repr

/-- Modelled from the spec (section 4.1): `connect` registers the
last-will *before* opening the transport. -/
def connectActions (cfg : BridgeConfig) : List MgrAction :=
  [.registerWill (offlineMsg cfg), .openTransport]

/-- Modelled from the spec (section 4.1): `shutdown` publishes retained
`"offline"` synchronously, flushes in-flight acknowledgements within the
linger timeout, then closes the transport. -/
def shutdownActions (cfg : BridgeConfig) : List MgrAction :=
  [.publishMsg (offlineMsg cfg), .flushAcks, .closeTransport]

/-! ## Reconnect backoff

Modelled from the spec (section 4.1): exponential backoff with a base
delay, multiplicative growth, a capped maximum and randomized jitter;
the backoff resets to base after the session has stayed `Connected`
longer than the reset threshold.  Delays are in integer milliseconds;
jitter is an arbitrary per-attempt percentage surcharge. -/

/-- Backoff configuration: base delay, growth factor, cap, maximal
jitter percentage, and the continuous-`Connected` reset threshold. -/
structure BackoffConfig where
  baseMs : ℕ
  factor : ℕ
  capMs : ℕ
  jitterMaxPct : ℕ
  resetAfterMs : ℕ
deriving DecidableEq, Repr

/-- Modelled from the spec: the delay before retry number `attempts`,
grown multiplicatively from the base, inflated by the attempt's jitter
percentage, and capped at the configured maximum. -/
def delayAt (cfg : BackoffConfig) (jit : ℕ → ℕ) (attempts : ℕ) : ℕ :=
  min (cfg.baseMs * cfg.factor ^ attempts * (100 + jit attempts) / 100)
    cfg.capMs

/-- The backoff bookkeeping: the consecutive-failure attempt counter. -/
structure BackoffState where
  attempts : ℕ
deriving DecidableEq, Repr

/-- Events seen by the backoff bookkeeping: a failed connect attempt, or
a period of `ms` milliseconds spent continuously `Connected`. -/
inductive BackoffEvent where
  | fail
  | connectedFor (ms : ℕ)
deriving DecidableEq, Repr

/-- Modelled from the spec: a failure bumps the attempt counter; a
continuous `Connected` period longer than the reset threshold resets it
to zero. -/
def backoffStep (cfg : BackoffConfig) (s : BackoffState) :
    BackoffEvent → BackoffState
  | .fail => ⟨s.attempts + 1⟩
  | .connectedFor ms => if cfg.resetAfterMs < ms then ⟨0⟩ else s

/-- The delays issued by `k` consecutive failed connect attempts. -/
def failDelays (cfg : BackoffConfig) (jit : ℕ → ℕ) (s : BackoffState) :
    ℕ → List ℕ
  | 0 => []
  | k + 1 =>
      delayAt cfg jit s.attempts ::
        failDelays cfg jit (backoffStep cfg s .fail) k

/-! ## Sensor Poller

Modelled from the spec (section 4.4): each tick reads every configured
sensor; a failed read is logged and skipped (bumping the per-sensor
consecutive-failure counter) while a successful read produces a
`Reading` forwarded to the Local Store and the State Publisher; read
failures never terminate the process and never touch the broker
session. -/

/-- Modelled from the spec (section 7): the error a single failed sample
raises. -/
structure SensorReadError where
  message : String
deriving DecidableEq, Repr

/-- The Poller's observable state.  `session` stands for the broker
session the Poller is forbidden to touch; `terminated` records whether
anything ever stopped the loop. -/
structure PollerState where
  logEntries : List String
  published : List Reading
  stored : List Reading
  failCount : String → ℕ
  session : SessionState
  terminated : Bool

/-- The log line for a failed read. -/
def readFailLog (sid : String) (e : SensorReadError) : String :=
  "sensor read failed: " ++ sid ++ ": " ++ e.message

/-- Handle one sensor's read outcome within a tick. -/
def pollOne (st : PollerState) (sid : String) (tick : ℤ) :
    Except SensorReadError ℚ → PollerState
  | .error e =>
      { st with
        logEntries := st.logEntries ++ [readFailLog sid e],
        failCount := fun x =>
          if x = sid then st.failCount sid + 1 else st.failCount x }
  | .ok v =>
      { st with
        published := st.published ++ [⟨sid, v, tick⟩],
        stored := st.stored ++ [⟨sid, v, tick⟩],
        failCount := fun x => if x = sid then 0 else st.failCount x }

/-- The read outcomes of one tick: per sensor id, a value or a
`SensorReadError`. -/
abbrev TickOutcomes := List (String × Except SensorReadError ℚ)

/-- One timer tick: poll every configured sensor in order. -/
def pollTick (st : PollerState) (tick : ℤ) : TickOutcomes → PollerState
  | [] => st
  | (sid, o) :: rest => pollTick (pollOne st sid tick o) tick rest

/-- A multi-tick run of the poll loop. -/
def pollRun (st : PollerState) (tick : ℤ) :
    List TickOutcomes → PollerState
  | [] => st
  | tk :: rest => pollRun (pollTick st tick tk) (tick + 1) rest

/-- The log entries a tick's failures contribute. -/
def failLogsOfTick : TickOutcomes → List String
  | [] => []
  | (sid, .error e) :: rest => readFailLog sid e :: failLogsOfTick rest
  | (_, .ok _) :: rest => failLogsOfTick rest

/-- The readings a tick's successes contribute. -/
def okReadingsOfTick (tick : ℤ) : TickOutcomes → List Reading
  | [] => []
  | (sid, .ok v) :: rest => ⟨sid, v, tick⟩ :: okReadingsOfTick tick rest
  | (_, .error _) :: rest => okReadingsOfTick tick rest

/-- All failure log entries of a run. -/
def failLogsOfRun : List TickOutcomes → List String
  | [] => []
  | tk :: rest => failLogsOfTick tk ++ failLogsOfRun rest

/-- All published readings of a run. -/
def okReadingsOfRun (tick : ℤ) : List TickOutcomes → List Reading
  | [] => []
  | tk :: rest => okReadingsOfTick tick tk ++ okReadingsOfRun (tick + 1) rest

/-! ## Startup configuration

Modelled from the spec (sections 6 and 7): the startup configuration
(broker host, port, credentials, client identifier, poll interval,
discovery prefix, namespace) is validated once; any missing required
field is a fatal `ConfigError` and the process never begins polling. -/

/-- Modelled from the spec (section 7): the fatal startup error. -/
inductive ConfigError where
  | missingField (field : String)
deriving DecidableEq, Repr

/-- The raw startup configuration before validation. -/
structure RawConfig where
  host : Option String
  port : Option ℕ
  credentials : Option String
  clientId : Option String
  pollIntervalSec : Option ℕ
  discPref : Option String
  ns : Option String
deriving DecidableEq, Repr

/-- A validated configuration: every required field present. -/
structure ValidConfig where
  host : String
  port : ℕ
  credentials : String
  clientId : String
  pollIntervalSec : ℕ
  discPref : String
  ns : String
deriving DecidableEq, Repr

/-- Whether some required startup field is missing. -/
def hasMissingField (raw : RawConfig) : Bool :=
  raw.host.isNone || raw.port.isNone || raw.credentials.isNone ||
    raw.clientId.isNone || raw.pollIntervalSec.isNone ||
    raw.discPref.isNone || raw.ns.isNone

/-- Modelled from the spec: validate the startup configuration once,
failing on the first missing required field. -/
def validateConfig (raw : RawConfig) : Except ConfigError ValidConfig :=
  match raw.host with
  | none => .error (.missingField "broker host")
  | some h =>
    match raw.port with
    | none => .error (.missingField "broker port")
    | some p =>
      match raw.credentials with
      | none => .error (.missingField "credentials")
      | some c =>
        match raw.clientId with
        | none => .error (.missingField "client identifier")
        | some ci =>
          match raw.pollIntervalSec with
          | none => .error (.missingField "poll interval")
          | some pv =>
            match raw.discPref with
            | none => .error (.missingField "discovery prefix")
            | some dp =>
              match raw.ns with
              | none => .error (.missingField "namespace")
              | some n => .ok ⟨h, p, c, ci, pv, dp, n⟩

/-- The outcome of process startup. -/
inductive StartupResult where
  | fatal (e : ConfigError)
  | running (c : ValidConfig)
deriving DecidableEq, Repr

/-- Modelled from the spec: startup validates the configuration exactly
once; a validation failure is fatal and is not retried. -/
def startup (raw : RawConfig) : StartupResult :=
  match validateConfig raw with
  | .error e => .fatal e
  | .ok c => .running c

/-- Whether the process reaches the polling loop. -/
def pollingBegins : StartupResult → Bool
  | .fatal _ => false
  | .running _ => true

/-- The `ConfigError`s startup raises (at most one, never retried). -/
def raisedErrors : StartupResult → List ConfigError
  | .fatal e => [e]
  | .running _ => []

/-! ## Concrete instances used to exercise the theorems -/

/-- A concrete bridge configuration. -/
def cfg0 : BridgeConfig :=
  ⟨"breatheasy", "homeassistant", "BreatheEasy Air Monitor", "pi-airmonitor",
    "breatheasy-device"⟩

/-- A concrete temperature sensor definition. -/
def d0 : SensorDefinition :=
  ⟨"breatheasy_temperature", "temperature", "°C", "Temperature",
    .oneDecimal, "breatheasy/sensor/temperature",
    "homeassistant/sensor/breatheasy_temperature/config",
    "breatheasy_temperature"⟩

/-- A concrete reading (integer-valued, 21 degrees). -/
def rDemo : Reading := ⟨"breatheasy_temperature", 21, 0⟩

/-- A disconnected bridge state. -/
def sRec : BridgeState := ⟨.Reconnecting, [], false⟩

/-- A connected bridge state. -/
def sConn : BridgeState := ⟨.Connected, [], false⟩

/-- A raw configuration missing the broker host. -/
def raw0 : RawConfig :=
  ⟨none, some 1883, some "mqtt-user", some "breatheasy-api", some 30,
    some "homeassistant", some "breatheasy"⟩

/-- A concrete backoff configuration: base 1 s, doubling, 30 s cap,
at most 25 percent jitter, 60 s reset threshold. -/
def cfgB : BackoffConfig := ⟨1000, 2, 30000, 25, 60000⟩

/-- The zero jitter assignment. -/
def jit0 : ℕ → ℕ := fun _ => 0

/-- A concrete list of readings: two temperature readings with tied
timestamps and one older, plus one humidity reading. -/
def rsDemo : List SensorReading :=
  [⟨1, "temperature", 21, "°C", 100⟩,
   ⟨2, "temperature", 22, "°C", 100⟩,
   ⟨3, "temperature", 20, "°C", 50⟩,
   ⟨4, "humidity", 40, "%", 70⟩]

/-! ## Theorems -/

/-- C1: For every sensor value, the published state payload is a plain
string-encoded number rounded per the sensor's precision rule:
temperature, humidity, pm2.5, pm10 and voc values are rendered with one
decimal place and CO2 values are rounded to the nearest integer; in
particular the temperature value 23.456 formats to "23.5" and the CO2
value 812.7 formats to "813". -/
theorem statePayload_precision_rules :
    (∀ (d : SensorDefinition) (r : Reading),
        d.value_precision = Precision.oneDecimal →
        (stateMsg d r).payload = toFixed1 r.value) ∧
    (∀ (d : SensorDefinition) (r : Reading),
        d.value_precision = Precision.integer →
        (stateMsg d r).payload = toString (jsRound r.value)) ∧
    (∀ t : String,
        t = "temperature" ∨ t = "humidity" ∨ t = "pm25" ∨ t = "pm10" ∨
          t = "voc" →
        typePrecision t = Precision.oneDecimal) ∧
    typePrecision "co2" = Precision.integer ∧
    toFixed1 23.456 = "23.5" ∧
    toString (jsRound 812.7) = "813" := by
  refine ⟨?_, ?_, ?_, by decide, ?_, ?_⟩
  · intro d r h
    simp [stateMsg, statePayload, h]
  · intro d r h
    simp [stateMsg, statePayload, h]
  · intro t h
    rcases h with h | h | h | h | h <;> subst h <;> decide
  · have h : roundTenths (23.456 : ℚ) = 235 := by
      norm_num [roundTenths]
    rw [toFixed1, h]
    decide
  · have h : jsRound (812.7 : ℚ) = 813 := by
      norm_num [jsRound]
    rw [h]
    decide

/-- C1 witness: a concrete state message for a one-decimal sensor
definition carries the one-decimal payload, and the spec's two example
values format as required. -/
theorem statePayload_precision_rules_witness :
    (stateMsg d0 ⟨"breatheasy_temperature", 23.456, 0⟩).payload = "23.5" :=
  (statePayload_precision_rules.1 d0 ⟨"breatheasy_temperature", 23.456, 0⟩
      rfl).trans
    statePayload_precision_rules.2.2.2.2.1

/-- C9: formatRelativeTime returns "Just now" for every difference under
60 floored seconds (including negative differences, i.e. future
timestamps) and otherwise the floored minute, hour or day count with the
matching suffix, according to the 3600 and 86400 second thresholds. -/
theorem formatRelativeTime_spec (nowMs timeMs : ℤ) :
    ((nowMs - timeMs) / 1000 < 60 →
      formatRelativeTime nowMs timeMs = "Just now") ∧
    (nowMs < timeMs → formatRelativeTime nowMs timeMs = "Just now") ∧
    (60 ≤ (nowMs - timeMs) / 1000 →
      (nowMs - timeMs) / 1000 < 3600 →
      formatRelativeTime nowMs timeMs =
        toString (Int.ediv ((nowMs - timeMs) / 1000) 60) ++
          "m ago") ∧
    (3600 ≤ (nowMs - timeMs) / 1000 →
      (nowMs - timeMs) / 1000 < 86400 →
      formatRelativeTime nowMs timeMs =
        toString (Int.ediv ((nowMs - timeMs) / 1000) 3600) ++
          "h ago") ∧
    (86400 ≤ (nowMs - timeMs) / 1000 →
      formatRelativeTime nowMs timeMs =
        toString (Int.ediv ((nowMs - timeMs) / 1000) 86400) ++
          "d ago") := by
  refine ⟨?_, ?_, ?_, ?_, ?_⟩
  · intro h
    simp only [formatRelativeTime]
    rw [if_pos h]
  · intro h
    have hneg : (nowMs - timeMs) / 1000 < 60 := by omega
    simp only [formatRelativeTime]
    rw [if_pos hneg]
  · intro h1 h2
    simp only [formatRelativeTime]
    rw [if_neg (by omega), if_pos h2]
    rfl
  · intro h1 h2
    simp only [formatRelativeTime]
    rw [if_neg (by omega), if_neg (by omega), if_pos h2]
    rfl
  · intro h1
    simp only [formatRelativeTime]
    rw [if_neg (by omega), if_neg (by omega), if_neg (by omega)]
    rfl

/-- C9 witness: a 1000 second old timestamp renders as "16m ago". -/
theorem formatRelativeTime_spec_witness :
    formatRelativeTime 1000000 0 = "16m ago" :=
  ((formatRelativeTime_spec 1000000 0).2.2.1 (by decide) (by decide)).trans
    (by decide)

/-- C6: a startup configuration missing a required field raises a fatal
ConfigError exactly once, is not retried, and the process never begins
polling; transport-level connection failures are never fatal. -/
theorem configError_fatal_transport_not (raw : RawConfig)
    (cfg : BridgeConfig) (defs : List SensorDefinition) :
    (hasMissingField raw = true →
      (∃ e, startup raw = .fatal e ∧ raisedErrors (startup raw) = [e]) ∧
      pollingBegins (startup raw) = false) ∧
    (∀ s : BridgeState,
      (bridgeStep cfg defs s .connectFail).halted = s.halted) := by
  constructor
  · intro hmiss
    obtain ⟨h, p, c, ci, pv, dp, n⟩ := raw
    cases h <;> cases p <;> cases c <;> cases ci <;> cases pv <;>
      cases dp <;> cases n <;>
      first
        | exact ⟨⟨_, rfl, rfl⟩, rfl⟩
        | simp [hasMissingField] at hmiss
  · intro s
    by_cases hh : s.halted <;> by_cases hc : s.session = .Connected <;>
      simp [bridgeStep, hh, hc]

/-- C6 witness: the concrete configuration missing the broker host is
fatal and polling never begins, and a connect failure from a concrete
live state does not halt the process. -/
theorem configError_fatal_transport_not_witness :
    ((∃ e, startup raw0 = .fatal e ∧ raisedErrors (startup raw0) = [e]) ∧
      pollingBegins (startup raw0) = false) ∧
    (bridgeStep cfg0 [d0] sConn .connectFail).halted = sConn.halted :=
  ⟨(configError_fatal_transport_not raw0 cfg0 [d0]).1 (by decide),
    (configError_fatal_transport_not raw0 cfg0 [d0]).2 sConn⟩

/-- Poller helper: what one tick does, componentwise. -/
theorem pollTick_spec (st : PollerState) (tick : ℤ) (tk : TickOutcomes) :
    (pollTick st tick tk).terminated = st.terminated ∧
    (pollTick st tick tk).session = st.session ∧
    (pollTick st tick tk).logEntries =
      st.logEntries ++ failLogsOfTick tk ∧
    (pollTick st tick tk).published =
      st.published ++ okReadingsOfTick tick tk := by
  induction tk generalizing st with
  | nil => simp [pollTick, failLogsOfTick, okReadingsOfTick]
  | cons p rest ih =>
    obtain ⟨sid, o⟩ := p
    cases o with
    | error e =>
      have h := ih (pollOne st sid tick (.error e))
      simpa [pollTick, pollOne, failLogsOfTick, okReadingsOfTick] using h
    | ok v =>
      have h := ih (pollOne st sid tick (.ok v))
      simpa [pollTick, pollOne, failLogsOfTick, okReadingsOfTick] using h

/-- C7: read failures are logged and skipped while polling continues:
over any run, the poll loop never terminates, never touches the broker
session, logs exactly one entry per failed read, and publishes exactly
the successful reads in order. -/
theorem pollRun_read_failure_resilient (st : PollerState) (tick : ℤ)
    (ticks : List TickOutcomes) :
    (pollRun st tick ticks).terminated = st.terminated ∧
    (pollRun st tick ticks).session = st.session ∧
    (pollRun st tick ticks).logEntries =
      st.logEntries ++ failLogsOfRun ticks ∧
    (pollRun st tick ticks).published =
      st.published ++ okReadingsOfRun tick ticks := by
  induction ticks generalizing st tick with
  | nil => simp [pollRun, failLogsOfRun, okReadingsOfRun]
  | cons tk rest ih =>
    have htick := pollTick_spec st tick tk
    have hrun := ih (pollTick st tick tk) (tick + 1)
    refine ⟨?_, ?_, ?_, ?_⟩
    · rw [pollRun, hrun.1, htick.1]
    · rw [pollRun, hrun.2.1, htick.2.1]
    · rw [pollRun, hrun.2.2.1, htick.2.2.1, failLogsOfRun,
        List.append_assoc]
    · rw [pollRun, hrun.2.2.2, htick.2.2.2, okReadingsOfRun,
        List.append_assoc]

/-- Backoff helper: the (jittered, capped) delay never decreases from
one attempt to the next, provided the growth factor dominates the
jitter band. -/
theorem delayAt_mono (cfg : BackoffConfig) (jit : ℕ → ℕ)
    (hj : ∀ n, jit n ≤ cfg.jitterMaxPct)
    (hfac : 100 + cfg.jitterMaxPct ≤ 100 * cfg.factor) (n : ℕ) :
    delayAt cfg jit n ≤ delayAt cfg jit (n + 1) := by
  unfold delayAt
  refine min_le_min ?_ le_rfl
  apply Nat.div_le_div_right
  calc cfg.baseMs * cfg.factor ^ n * (100 + jit n)
      ≤ cfg.baseMs * cfg.factor ^ n * (100 * cfg.factor) := by
        refine Nat.mul_le_mul le_rfl ?_
        have := hj n
        omega
    _ = cfg.baseMs * cfg.factor ^ (n + 1) * 100 := by ring
    _ ≤ cfg.baseMs * cfg.factor ^ (n + 1) * (100 + jit (n + 1)) := by
        refine Nat.mul_le_mul le_rfl ?_
        omega

/-- C5: consecutive connect failures produce a non-decreasing delay
sequence capped at the configured maximum, and a continuous Connected
period longer than the reset threshold makes the next failure's delay
restart at the base delay. -/
theorem backoff_monotone_capped_reset (cfg : BackoffConfig) (jit : ℕ → ℕ)
    (hj : ∀ n, jit n ≤ cfg.jitterMaxPct)
    (hfac : 100 + cfg.jitterMaxPct ≤ 100 * cfg.factor)
    (hbase : cfg.baseMs ≤ cfg.capMs) :
    (∀ (s : BackoffState) (k : ℕ),
      List.Chain' (· ≤ ·) (failDelays cfg jit s k)) ∧
    (∀ (s : BackoffState) (k : ℕ), ∀ x ∈ failDelays cfg jit s k,
      x ≤ cfg.capMs) ∧
    (∀ (s : BackoffState) (ms : ℕ), cfg.resetAfterMs < ms →
      (backoffStep cfg s (.connectedFor ms)).attempts = 0 ∧
      (jit 0 = 0 →
        delayAt cfg jit
          (backoffStep cfg s (.connectedFor ms)).attempts = cfg.baseMs)) := by
  refine ⟨?_, ?_, ?_⟩
  · intro s k
    induction k generalizing s with
    | zero => simp [failDelays]
    | succ k ih =>
      cases k with
      | zero => simp [failDelays]
      | succ k2 =>
        show List.Chain' (· ≤ ·)
          (delayAt cfg jit s.attempts ::
            failDelays cfg jit ⟨s.attempts + 1⟩ (k2 + 1))
        rw [failDelays, List.chain'_cons]
        exact ⟨delayAt_mono cfg jit hj hfac s.attempts, ih ⟨s.attempts + 1⟩⟩
  · intro s k
    induction k generalizing s with
    | zero => simp [failDelays]
    | succ k ih =>
      intro x hx
      rcases List.mem_cons.mp hx with h | h
      · subst h
        exact min_le_right _ _
      · exact ih (backoffStep cfg s .fail) x h
  · intro s ms hms
    constructor
    · simp [backoffStep, hms]
    · intro hj0
      have ha : (backoffStep cfg s (.connectedFor ms)).attempts = 0 := by
        simp [backoffStep, hms]
      rw [ha]
      unfold delayAt
      rw [hj0, pow_zero, Nat.mul_one, Nat.add_zero, Nat.mul_div_cancel _ (by omega)]
      exact min_eq_left hbase

/-- C5 witness: with base 1 s, factor 2, cap 30 s, zero jitter, four
consecutive failures yield a non-decreasing delay sequence. -/
theorem backoff_monotone_capped_reset_witness :
    List.Chain' (· ≤ ·) (failDelays cfgB jit0 ⟨0⟩ 4) :=
  (backoff_monotone_capped_reset cfgB jit0 (fun _ => Nat.zero_le _)
    (by decide) (by decide)).1 ⟨0⟩ 4

/-- Bridge helper: a halted bridge ignores every further event. -/
theorem bridgeStep_halted (cfg : BridgeConfig) (defs : List SensorDefinition)
    (s : BridgeState) (e : BridgeEvent) (h : s.halted = true) :
    bridgeStep cfg defs s e = s := by
  cases e <;> simp [bridgeStep, h]

/-- Bridge helper: a halted bridge stays put over any event list. -/
theorem bridgeRun_halted (cfg : BridgeConfig) (defs : List SensorDefinition)
    (s : BridgeState) (evs : List BridgeEvent) (h : s.halted = true) :
    bridgeRun cfg defs s evs = s := by
  induction evs with
  | nil => rfl
  | cons e evs ih =>
    show bridgeRun cfg defs (bridgeStep cfg defs s e) evs = s
    rw [bridgeStep_halted cfg defs s e h, ih]

/-- Availability-fold helper: folding over an appended log. -/
theorem lastAvailFrom_append (cfg : BridgeConfig) (acc : Option String)
    (l1 l2 : List Msg) :
    lastAvailFrom cfg acc (l1 ++ l2) =
      lastAvailFrom cfg (lastAvailFrom cfg acc l1) l2 := by
  simp [lastAvailFrom, List.foldl_append]

/-- Availability-fold helper: a log with no retained availability
message leaves the accumulator unchanged. -/
theorem lastAvailFrom_skip (cfg : BridgeConfig) (acc : Option String)
    (l : List Msg)
    (h : ∀ m ∈ l, ¬(m.topic = availTopic cfg ∧ m.retained = true)) :
    lastAvailFrom cfg acc l = acc := by
  induction l generalizing acc with
  | nil => rfl
  | cons m rest ih =>
    have hm := h m (List.mem_cons_self m rest)
    show lastAvailFrom cfg
        (if m.topic = availTopic cfg ∧ m.retained = true then some m.payload
         else acc) rest = acc
    rw [if_neg hm]
    exact ih acc fun x hx => h x (List.mem_cons_of_mem m hx)

/-- Availability-fold helper: appending one retained availability
message overrides the folded value. -/
theorem lastAvail_snoc_avail (cfg : BridgeConfig) (l : List Msg)
    (m : Msg) (ht : m.topic = availTopic cfg) (hr : m.retained = true) :
    lastAvail cfg (l ++ [m]) = some m.payload := by
  rw [lastAvail, lastAvailFrom_append]
  show lastAvailFrom cfg
      (if m.topic = availTopic cfg ∧ m.retained = true then some m.payload
       else lastAvailFrom cfg none l) [] = some m.payload
  rw [if_pos ⟨ht, hr⟩]
  rfl

/-- C4: while the session is not Connected, a state-class publish is a
strict no-op (identical state, nothing queued), and the messages a
reconnect flushes are exactly the availability and discovery
announcements — all retained, so no state-class backlog exists. -/
theorem state_publish_best_effort (cfg : BridgeConfig)
    (defs : List SensorDefinition) :
    (∀ (s : BridgeState) (r : Reading) (d : SensorDefinition),
      s.session ≠ .Connected →
      bridgeStep cfg defs s (.publishReading r d) = s) ∧
    (∀ s : BridgeState, s.halted = false → s.session ≠ .Connected →
      (bridgeStep cfg defs s .connectOk).log =
        s.log ++ onlineMsg cfg :: defs.map (buildDiscovery cfg) ∧
      ∀ m ∈ onlineMsg cfg :: defs.map (buildDiscovery cfg),
        m.retained = true) := by
  constructor
  · intro s r d hs
    by_cases hh : s.halted <;> simp [bridgeStep, hh, hs]
  · intro s hh hs
    constructor
    · simp [bridgeStep, hh, hs]
    · intro m hm
      rcases List.mem_cons.mp hm with h | h
      · subst h
        rfl
      · obtain ⟨d, _, rfl⟩ := List.mem_map.mp h
        rfl

/-- C4 witness: a concrete publish on a reconnecting session changes
nothing at all. -/
theorem state_publish_best_effort_witness :
    bridgeStep cfg0 [d0] sRec (.publishReading rDemo d0) = sRec :=
  (state_publish_best_effort cfg0 [d0]).1 sRec rDemo d0 (by decide)

/-- C3 counterexample: in the very first session (one successful
connect), the retained "online" availability message is published
*before* the session's discovery message — the connect sequence
publishes "online" first and only then fires the Connected callback
that re-announces the sensors, so "online is never published before all
discovery messages" is false. -/
theorem online_before_discovery_cex :
    onlineThenDiscovery cfg0 d0
      (bridgeRun cfg0 [d0] initState [.connectOk]).log = true := by
  set_option maxRecDepth 4096 in decide

/-- C3 (amended): on every (re)connect the retained "online" message is
published first, followed by the session's discovery messages (rather
than after them); and "offline" is the terminal retained availability
value after an explicit shutdown (which also halts the bridge for good)
or after the last-will fires on an ungraceful drop. -/
theorem availability_order_and_terminal_offline (cfg : BridgeConfig)
    (defs : List SensorDefinition) :
    (∀ s : BridgeState, s.halted = false → s.session ≠ .Connected →
      (bridgeStep cfg defs s .connectOk).log =
        s.log ++ onlineMsg cfg :: defs.map (buildDiscovery cfg)) ∧
    (∀ (s : BridgeState) (evs : List BridgeEvent), s.halted = true →
      bridgeRun cfg defs s evs = s) ∧
    (∀ (s : BridgeState) (evs : List BridgeEvent), s.halted = false →
      lastAvail cfg
          (bridgeRun cfg defs (bridgeStep cfg defs s .shutdown) evs).log =
        some "offline" ∧
      (bridgeRun cfg defs (bridgeStep cfg defs s .shutdown) evs).halted =
        true) ∧
    (∀ s : BridgeState, s.halted = false → s.session = .Connected →
      lastAvail cfg (bridgeStep cfg defs s .connectFail).log =
        some "offline") := by
  refine ⟨?_, ?_, ?_, ?_⟩
  · intro s hh hs
    simp [bridgeStep, hh, hs]
  · intro s evs h
    exact bridgeRun_halted cfg defs s evs h
  · intro s evs hh
    have hstep : bridgeStep cfg defs s .shutdown =
        ⟨.Disconnected, s.log ++ [offlineMsg cfg], true⟩ := by
      simp [bridgeStep, hh]
    rw [hstep, bridgeRun_halted cfg defs _ evs rfl]
    exact ⟨lastAvail_snoc_avail cfg s.log (offlineMsg cfg) rfl rfl, rfl⟩
  · intro s hh hs
    have hstep : bridgeStep cfg defs s .connectFail =
        { s with session := .Reconnecting,
                 log := s.log ++ [offlineMsg cfg] } := by
      simp [bridgeStep, hh, hs]
    rw [hstep]
    exact lastAvail_snoc_avail cfg s.log (offlineMsg cfg) rfl rfl

/-- C3 witness: dropping a concrete Connected session fires the
last-will, leaving retained "offline" on the availability topic. -/
theorem availability_order_and_terminal_offline_witness :
    lastAvail cfg0 (bridgeStep cfg0 [d0] sConn .connectFail).log =
      some "offline" :=
  (availability_order_and_terminal_offline cfg0 [d0]).2.2.2 sConn rfl rfl

/-- Availability invariant helper: one bridge step preserves "retained
availability reflects the last known true state". -/
theorem availInv_step (cfg : BridgeConfig) (defs : List SensorDefinition)
    (hdefs : ∀ d ∈ defs, d.discovery_topic ≠ availTopic cfg)
    (s : BridgeState) (e : BridgeEvent)
    (h1 : s.session = .Connected → lastAvail cfg s.log = some "online")
    (h2 : s.halted = true → lastAvail cfg s.log = some "offline") :
    ((bridgeStep cfg defs s e).session = .Connected →
      lastAvail cfg (bridgeStep cfg defs s e).log = some "online") ∧
    ((bridgeStep cfg defs s e).halted = true →
      lastAvail cfg (bridgeStep cfg defs s e).log = some "offline") := by
  by_cases hh : s.halted = true
  · rw [bridgeStep_halted cfg defs s e hh]
    exact ⟨h1, h2⟩
  · have hh' : s.halted = false := by
      cases hs : s.halted
      · rfl
      · exact absurd hs hh
    cases e with
    | connectOk =>
      by_cases hc : s.session = .Connected
      · have hstep : bridgeStep cfg defs s .connectOk = s := by
          simp [bridgeStep, hh', hc]
        rw [hstep]
        exact ⟨h1, h2⟩
      · have hstep : bridgeStep cfg defs s .connectOk =
            ⟨.Connected,
              s.log ++ onlineMsg cfg :: defs.map (buildDiscovery cfg),
              false⟩ := by
          simp [bridgeStep, hh', hc]
        rw [hstep]
        refine ⟨fun _ => ?_, fun hfalse => by simp at hfalse⟩
        rw [lastAvail, lastAvailFrom_append]
        show lastAvailFrom cfg
            (if (onlineMsg cfg).topic = availTopic cfg ∧
                (onlineMsg cfg).retained = true
             then some (onlineMsg cfg).payload
             else lastAvailFrom cfg none s.log)
            (defs.map (buildDiscovery cfg)) = some "online"
        rw [if_pos ⟨rfl, rfl⟩]
        refine lastAvailFrom_skip cfg _ _ ?_
        intro m hm
        obtain ⟨d, hd, rfl⟩ := List.mem_map.mp hm
        exact fun hcontra => hdefs d hd hcontra.1
    | connectFail =>
      by_cases hc : s.session = .Connected
      · have hstep : bridgeStep cfg defs s .connectFail =
            { s with session := .Reconnecting,
                     log := s.log ++ [offlineMsg cfg] } := by
          simp [bridgeStep, hh', hc]
        rw [hstep]
        exact ⟨fun hcontra => by simp at hcontra,
          fun hht => absurd (hh'.symm.trans hht) (by simp)⟩
      · have hstep : bridgeStep cfg defs s .connectFail =
            { s with session := .Reconnecting } := by
          simp [bridgeStep, hh', hc]
        rw [hstep]
        exact ⟨fun hcontra => by simp at hcontra,
          fun hht => absurd (hh'.symm.trans hht) (by simp)⟩
    | publishReading r d =>
      by_cases hc : s.session = .Connected
      · have hstep : bridgeStep cfg defs s (.publishReading r d) =
            { s with log := s.log ++ [stateMsg d r] } := by
          simp [bridgeStep, hh', hc]
        rw [hstep]
        have hkeep : lastAvail cfg (s.log ++ [stateMsg d r]) =
            lastAvail cfg s.log := by
          rw [lastAvail, lastAvailFrom_append]
          refine lastAvailFrom_skip cfg _ _ ?_
          intro m hm
          rw [List.mem_singleton.mp hm]
          exact fun hcontra => by
            have := hcontra.2
            simp [stateMsg] at this
        exact ⟨fun _ => hkeep.trans (h1 hc),
          fun hht => absurd (hh'.symm.trans hht) (by simp)⟩
      · have hstep : bridgeStep cfg defs s (.publishReading r d) = s := by
          simp [bridgeStep, hh', hc]
        rw [hstep]
        exact ⟨h1, h2⟩
    | shutdown =>
      have hstep : bridgeStep cfg defs s .shutdown =
          ⟨.Disconnected, s.log ++ [offlineMsg cfg], true⟩ := by
        simp [bridgeStep, hh']
      rw [hstep]
      exact ⟨fun hcontra => by simp at hcontra,
        fun _ => lastAvail_snoc_avail cfg s.log (offlineMsg cfg) rfl rfl⟩

/-- Availability invariant helper: the invariant holds along any run. -/
theorem availInv_run (cfg : BridgeConfig) (defs : List SensorDefinition)
    (hdefs : ∀ d ∈ defs, d.discovery_topic ≠ availTopic cfg)
    (evs : List BridgeEvent) (s : BridgeState)
    (h1 : s.session = .Connected → lastAvail cfg s.log = some "online")
    (h2 : s.halted = true → lastAvail cfg s.log = some "offline") :
    ((bridgeRun cfg defs s evs).session = .Connected →
      lastAvail cfg (bridgeRun cfg defs s evs).log = some "online") ∧
    ((bridgeRun cfg defs s evs).halted = true →
      lastAvail cfg (bridgeRun cfg defs s evs).log = some "offline") := by
  induction evs generalizing s with
  | nil => exact ⟨h1, h2⟩
  | cons e evs ih =>
    have hstep := availInv_step cfg defs hdefs s e h1 h2
    exact ih (bridgeStep cfg defs s e) hstep.1 hstep.2

/-- C8: `connect` registers the last-will (retained "offline") before
opening the transport, `shutdown` publishes retained "offline" before
closing the transport, and along every run from startup the retained
broker-side availability value reflects the Connection Manager's state:
"online" whenever Connected, "offline" once shut down. -/
theorem availability_reflects_state (cfg : BridgeConfig)
    (defs : List SensorDefinition)
    (hdefs : ∀ d ∈ defs, d.discovery_topic ≠ availTopic cfg) :
    ((connectActions cfg)[0]? = some (.registerWill (offlineMsg cfg)) ∧
      (connectActions cfg)[1]? = some .openTransport) ∧
    ((shutdownActions cfg)[0]? = some (.publishMsg (offlineMsg cfg)) ∧
      (shutdownActions cfg)[2]? = some .closeTransport) ∧
    (offlineMsg cfg).retained = true ∧
    (offlineMsg cfg).payload = "offline" ∧
    (∀ evs : List BridgeEvent,
      ((bridgeRun cfg defs initState evs).session = .Connected →
        lastAvail cfg (bridgeRun cfg defs initState evs).log =
          some "online") ∧
      ((bridgeRun cfg defs initState evs).halted = true →
        lastAvail cfg (bridgeRun cfg defs initState evs).log =
          some "offline")) := by
  refine ⟨⟨rfl, rfl⟩, ⟨rfl, rfl⟩, rfl, rfl, ?_⟩
  intro evs
  exact availInv_run cfg defs hdefs evs initState
    (fun hcontra => by simp [initState] at hcontra)
    (fun hcontra => by simp [initState] at hcontra)

/-- C8 witness: after a concrete successful connect from startup, the
retained availability value is "online". -/
theorem availability_reflects_state_witness :
    lastAvail cfg0 (bridgeRun cfg0 [d0] initState [.connectOk]).log =
      some "online" :=
  ((availability_reflects_state cfg0 [d0] (by decide)).2.2.2.2
      [.connectOk]).1 (by decide)

/-- The topic of a discovery message. -/
theorem buildDiscovery_topic (cfg : BridgeConfig) (d : SensorDefinition) :
    (buildDiscovery cfg d).topic = d.discovery_topic := rfl

/-- The topic of the online availability message. -/
theorem onlineMsg_topic (cfg : BridgeConfig) :
    (onlineMsg cfg).topic = availTopic cfg := rfl

/-- The topic of the offline availability message. -/
theorem offlineMsg_topic (cfg : BridgeConfig) :
    (offlineMsg cfg).topic = availTopic cfg := rfl

/-- The topic of a state message. -/
theorem stateMsg_topic (d : SensorDefinition) (r : Reading) :
    (stateMsg d r).topic = d.state_topic := rfl

/-- Discovery counting distributes over append. -/
theorem discCount_append (d : SensorDefinition) (l1 l2 : List Msg) :
    discCount d (l1 ++ l2) = discCount d l1 + discCount d l2 := by
  induction l1 with
  | nil => simp [discCount]
  | cons m rest ih =>
    simp [discCount, ih, Nat.add_assoc]

/-- A log whose topics all avoid the discovery topic counts zero. -/
theorem discCount_zero (d : SensorDefinition) (l : List Msg)
    (h : ∀ m ∈ l, m.topic ≠ d.discovery_topic) : discCount d l = 0 := by
  induction l with
  | nil => rfl
  | cons m rest ih =>
    rw [discCount, if_neg (h m (List.mem_cons_self m rest)), Nat.zero_add]
    exact ih fun x hx => h x (List.mem_cons_of_mem m hx)

/-- One `announceAll` batch contains exactly one message at `d`'s
discovery topic, provided `d` is registered once and owns its topic. -/
theorem discCount_announce (cfg : BridgeConfig) (d : SensorDefinition)
    (defs : List SensorDefinition) (hnd : defs.Nodup) (hmem : d ∈ defs)
    (huniq : ∀ d' ∈ defs, d'.discovery_topic = d.discovery_topic → d' = d) :
    discCount d (defs.map (buildDiscovery cfg)) = 1 := by
  induction defs with
  | nil => simp at hmem
  | cons a l ih =>
    rw [List.nodup_cons] at hnd
    rw [List.map_cons, discCount, buildDiscovery_topic]
    rcases List.mem_cons.mp hmem with rfl | hdl
    · rw [if_pos rfl]
      have hz : discCount d (l.map (buildDiscovery cfg)) = 0 := by
        apply discCount_zero
        intro m hm
        obtain ⟨d', hd', rfl⟩ := List.mem_map.mp hm
        rw [buildDiscovery_topic]
        intro ht
        have he := huniq d' (List.mem_cons_of_mem _ hd') ht
        subst he
        exact hnd.1 hd'
      rw [hz]
    · have hne : a.discovery_topic ≠ d.discovery_topic := by
        intro ht
        have ha : a = d := huniq a (List.mem_cons_self a l) ht
        subst ha
        exact hnd.1 hdl
      rw [if_neg hne, Nat.zero_add]
      exact ih hnd.2 hdl fun d' hd' =>
        huniq d' (List.mem_cons_of_mem _ hd')

/-- One bridge step adds a discovery-topic message exactly on a
transition into `Connected` (and then exactly one such message). -/
theorem discCount_step (cfg : BridgeConfig) (defs : List SensorDefinition)
    (d : SensorDefinition) (hnd : defs.Nodup) (hmem : d ∈ defs)
    (huniq : ∀ d' ∈ defs, d'.discovery_topic = d.discovery_topic → d' = d)
    (havail : availTopic cfg ≠ d.discovery_topic)
    (s : BridgeState) (e : BridgeEvent)
    (hev : ∀ (r : Reading) (d' : SensorDefinition),
      e = .publishReading r d' → d'.state_topic ≠ d.discovery_topic) :
    discCount d (bridgeStep cfg defs s e).log =
      discCount d s.log +
        (if s.session ≠ .Connected ∧
            (bridgeStep cfg defs s e).session = .Connected
         then 1 else 0) := by
  by_cases hh : s.halted = true
  · rw [bridgeStep_halted cfg defs s e hh,
      if_neg fun hco => hco.1 hco.2]
    omega
  · have hh' : s.halted = false := by
      cases hs : s.halted
      · rfl
      · exact absurd hs hh
    cases e with
    | connectOk =>
      by_cases hc : s.session = .Connected
      · have hstep : bridgeStep cfg defs s .connectOk = s := by
          simp [bridgeStep, hh', hc]
        rw [hstep, if_neg fun hco => hco.1 hc]
        omega
      · have hstep : bridgeStep cfg defs s .connectOk =
            ⟨.Connected,
              s.log ++ onlineMsg cfg :: defs.map (buildDiscovery cfg),
              false⟩ := by
          simp [bridgeStep, hh', hc]
        rw [hstep, if_pos ⟨hc, rfl⟩]
        show discCount d
            (s.log ++ onlineMsg cfg :: defs.map (buildDiscovery cfg)) =
          discCount d s.log + 1
        rw [discCount_append, discCount, onlineMsg_topic, if_neg havail,
          discCount_announce cfg d defs hnd hmem huniq, Nat.zero_add]
    | connectFail =>
      by_cases hc : s.session = .Connected
      · have hstep : bridgeStep cfg defs s .connectFail =
            { s with session := .Reconnecting,
                     log := s.log ++ [offlineMsg cfg] } := by
          simp [bridgeStep, hh', hc]
        rw [hstep, if_neg fun hco => hco.1 hc]
        show discCount d (s.log ++ [offlineMsg cfg]) = discCount d s.log
        rw [discCount_append, discCount, offlineMsg_topic, if_neg havail,
          discCount]
        omega
      · have hstep : bridgeStep cfg defs s .connectFail =
            { s with session := .Reconnecting } := by
          simp [bridgeStep, hh', hc]
        rw [hstep, if_neg fun hco => by simpa using hco.2]
        simp
    | publishReading r dd =>
      by_cases hc : s.session = .Connected
      · have hstep : bridgeStep cfg defs s (.publishReading r dd) =
            { s with log := s.log ++ [stateMsg dd r] } := by
          simp [bridgeStep, hh', hc]
        rw [hstep, if_neg fun hco => hco.1 hc]
        show discCount d (s.log ++ [stateMsg dd r]) = discCount d s.log
        rw [discCount_append, discCount, stateMsg_topic,
          if_neg (hev r dd rfl), discCount]
        omega
      · have hstep : bridgeStep cfg defs s (.publishReading r dd) = s := by
          simp [bridgeStep, hh', hc]
        rw [hstep, if_neg fun hco => hco.1 hco.2]
        omega
    | shutdown =>
      have hstep : bridgeStep cfg defs s .shutdown =
          ⟨.Disconnected, s.log ++ [offlineMsg cfg], true⟩ := by
        simp [bridgeStep, hh']
      rw [hstep, if_neg fun hco => by simpa using hco.2]
      show discCount d (s.log ++ [offlineMsg cfg]) = discCount d s.log
      rw [discCount_append, discCount, offlineMsg_topic, if_neg havail,
        discCount]
      omega

/-- One bridge step only ever adds the canonical discovery payload at
`d`'s discovery topic. -/
theorem discPayload_step (cfg : BridgeConfig) (defs : List SensorDefinition)
    (d : SensorDefinition)
    (huniq : ∀ d' ∈ defs, d'.discovery_topic = d.discovery_topic → d' = d)
    (havail : availTopic cfg ≠ d.discovery_topic)
    (s : BridgeState) (e : BridgeEvent)
    (hev : ∀ (r : Reading) (d' : SensorDefinition),
      e = .publishReading r d' → d'.state_topic ≠ d.discovery_topic)
    (hlog : ∀ m ∈ s.log, m.topic = d.discovery_topic →
      m = buildDiscovery cfg d) :
    ∀ m ∈ (bridgeStep cfg defs s e).log, m.topic = d.discovery_topic →
      m = buildDiscovery cfg d := by
  by_cases hh : s.halted = true
  · rw [bridgeStep_halted cfg defs s e hh]
    exact hlog
  · have hh' : s.halted = false := by
      cases hs : s.halted
      · rfl
      · exact absurd hs hh
    cases e with
    | connectOk =>
      by_cases hc : s.session = .Connected
      · have hstep : bridgeStep cfg defs s .connectOk = s := by
          simp [bridgeStep, hh', hc]
        rw [hstep]
        exact hlog
      · have hstep : bridgeStep cfg defs s .connectOk =
            ⟨.Connected,
              s.log ++ onlineMsg cfg :: defs.map (buildDiscovery cfg),
              false⟩ := by
          simp [bridgeStep, hh', hc]
        rw [hstep]
        intro m hm ht
        rcases List.mem_append.mp hm with h | h
        · exact hlog m h ht
        · rcases List.mem_cons.mp h with rfl | h2
          · exact absurd ht havail
          · obtain ⟨d', hd', rfl⟩ := List.mem_map.mp h2
            rw [huniq d' hd' ht]
    | connectFail =>
      by_cases hc : s.session = .Connected
      · have hstep : bridgeStep cfg defs s .connectFail =
            { s with session := .Reconnecting,
                     log := s.log ++ [offlineMsg cfg] } := by
          simp [bridgeStep, hh', hc]
        rw [hstep]
        intro m hm ht
        rcases List.mem_append.mp hm with h | h
        · exact hlog m h ht
        · rw [List.mem_singleton.mp h] at ht
          exact absurd ht havail
      · have hstep : bridgeStep cfg defs s .connectFail =
            { s with session := .Reconnecting } := by
          simp [bridgeStep, hh', hc]
        rw [hstep]
        exact hlog
    | publishReading r dd =>
      by_cases hc : s.session = .Connected
      · have hstep : bridgeStep cfg defs s (.publishReading r dd) =
            { s with log := s.log ++ [stateMsg dd r] } := by
          simp [bridgeStep, hh', hc]
        rw [hstep]
        intro m hm ht
        rcases List.mem_append.mp hm with h | h
        · exact hlog m h ht
        · rw [List.mem_singleton.mp h] at ht
          exact absurd ht (hev r dd rfl)
      · have hstep : bridgeStep cfg defs s (.publishReading r dd) = s := by
          simp [bridgeStep, hh', hc]
        rw [hstep]
        exact hlog
    | shutdown =>
      have hstep : bridgeStep cfg defs s .shutdown =
          ⟨.Disconnected, s.log ++ [offlineMsg cfg], true⟩ := by
        simp [bridgeStep, hh']
      rw [hstep]
      intro m hm ht
      rcases List.mem_append.mp hm with h | h
      · exact hlog m h ht
      · rw [List.mem_singleton.mp h] at ht
        exact absurd ht havail

/-- Along a run, the number of messages at `d`'s discovery topic grows
by exactly the number of transitions into `Connected`. -/
theorem discCount_run (cfg : BridgeConfig) (defs : List SensorDefinition)
    (d : SensorDefinition) (hnd : defs.Nodup) (hmem : d ∈ defs)
    (huniq : ∀ d' ∈ defs, d'.discovery_topic = d.discovery_topic → d' = d)
    (havail : availTopic cfg ≠ d.discovery_topic)
    (evs : List BridgeEvent)
    (hevs : ∀ (r : Reading) (d' : SensorDefinition),
      BridgeEvent.publishReading r d' ∈ evs →
      d'.state_topic ≠ d.discovery_topic)
    (s : BridgeState) :
    discCount d (bridgeRun cfg defs s evs).log =
      discCount d s.log + connectsInto cfg defs s evs := by
  induction evs generalizing s with
  | nil => simp [bridgeRun, connectsInto]
  | cons e evs ih =>
    have hevs' : ∀ (r : Reading) (d' : SensorDefinition),
        BridgeEvent.publishReading r d' ∈ evs →
        d'.state_topic ≠ d.discovery_topic :=
      fun r d' h => hevs r d' (List.mem_cons_of_mem _ h)
    have hstep := discCount_step cfg defs d hnd hmem huniq havail s e
      (fun r d' he => hevs r d' (by rw [← he]; exact List.mem_cons_self e evs))
    show discCount d
        (bridgeRun cfg defs (bridgeStep cfg defs s e) evs).log =
      discCount d s.log + connectsInto cfg defs s (e :: evs)
    rw [ih hevs' (bridgeStep cfg defs s e), hstep, connectsInto]
    omega

/-- Along a run, every message at `d`'s discovery topic is the canonical
discovery payload. -/
theorem discPayload_run (cfg : BridgeConfig) (defs : List SensorDefinition)
    (d : SensorDefinition)
    (huniq : ∀ d' ∈ defs, d'.discovery_topic = d.discovery_topic → d' = d)
    (havail : availTopic cfg ≠ d.discovery_topic)
    (evs : List BridgeEvent)
    (hevs : ∀ (r : Reading) (d' : SensorDefinition),
      BridgeEvent.publishReading r d' ∈ evs →
      d'.state_topic ≠ d.discovery_topic)
    (s : BridgeState)
    (hlog : ∀ m ∈ s.log, m.topic = d.discovery_topic →
      m = buildDiscovery cfg d) :
    ∀ m ∈ (bridgeRun cfg defs s evs).log, m.topic = d.discovery_topic →
      m = buildDiscovery cfg d := by
  induction evs generalizing s with
  | nil => exact hlog
  | cons e evs ih =>
    have hevs' : ∀ (r : Reading) (d' : SensorDefinition),
        BridgeEvent.publishReading r d' ∈ evs →
        d'.state_topic ≠ d.discovery_topic :=
      fun r d' h => hevs r d' (List.mem_cons_of_mem _ h)
    exact ih hevs' (bridgeStep cfg defs s e)
      (discPayload_step cfg defs d huniq havail s e
        (fun r d' he => hevs r d'
          (by rw [← he]; exact List.mem_cons_self e evs))
        hlog)

/-- C2: the discovery build is a deterministic function of the
SensorDefinition, and across any run from startup the number of
discovery publishes for a registered sensor equals the number of
transitions into Connected, every such publish carrying the identical
canonical payload. -/
theorem discovery_idempotent_per_connect (cfg : BridgeConfig)
    (defs : List SensorDefinition) (d : SensorDefinition)
    (hnd : defs.Nodup) (hmem : d ∈ defs)
    (huniq : ∀ d' ∈ defs, d'.discovery_topic = d.discovery_topic → d' = d)
    (havail : availTopic cfg ≠ d.discovery_topic)
    (evs : List BridgeEvent)
    (hevs : ∀ (r : Reading) (d' : SensorDefinition),
      BridgeEvent.publishReading r d' ∈ evs →
      d'.state_topic ≠ d.discovery_topic) :
    (∀ d1 d2 : SensorDefinition, d1 = d2 →
      buildDiscovery cfg d1 = buildDiscovery cfg d2) ∧
    discCount d (bridgeRun cfg defs initState evs).log =
      connectsInto cfg defs initState evs ∧
    (∀ m ∈ (bridgeRun cfg defs initState evs).log,
      m.topic = d.discovery_topic → m = buildDiscovery cfg d) := by
  refine ⟨fun d1 d2 h => by rw [h], ?_, ?_⟩
  · have h := discCount_run cfg defs d hnd hmem huniq havail evs hevs
      initState
    simpa [initState, discCount] using h
  · exact discPayload_run cfg defs d huniq havail evs hevs initState
      (fun m hm => absurd hm (List.not_mem_nil m))

/-- C2 witness: over a connect, drop, reconnect run with one registered
sensor, exactly two discovery publishes occur. -/
theorem discovery_idempotent_per_connect_witness :
    discCount d0 (bridgeRun cfg0 [d0] initState
      [.connectOk, .connectFail, .connectOk]).log = 2 :=
  ((discovery_idempotent_per_connect cfg0 [d0] d0 (by decide) (by decide)
      (by decide) (by decide) [.connectOk, .connectFail, .connectOk]
      (fun r d' hmem => by simp at hmem)).2.1).trans
    (by set_option maxRecDepth 4096 in decide)

/-- Dashboard helper: folding one more reading is one step. -/
theorem latestByType_snoc (rs : List SensorReading) (r : SensorReading) :
    latestByType (rs ++ [r]) = latestByTypeStep (latestByType rs) r := by
  simp [latestByType, List.foldl_append]

/-- Dashboard helper: the grouping invariant.  An empty slot means no
reading of that type exists; a filled slot holds a reading of that type
that splits the list into a strict-smaller prefix and a no-larger
suffix (so it is the earliest-positioned maximum). -/
theorem latestByType_inv (rs : List SensorReading) (t : String) :
    (latestByType rs t = none → ∀ r ∈ rs, r.sensor_type ≠ t) ∧
    (∀ b, latestByType rs t = some b →
      b.sensor_type = t ∧
      ∃ pre post, rs = pre ++ b :: post ∧
        (∀ r ∈ pre, r.sensor_type = t → r.timestamp < b.timestamp) ∧
        (∀ r ∈ post, r.sensor_type = t → r.timestamp ≤ b.timestamp)) := by
  induction rs using List.reverseRecOn with
  | nil =>
    constructor
    · intro _ r hr
      exact absurd hr (List.not_mem_nil r)
    · intro b hb
      exact absurd hb (by simp [latestByType])
  | append_singleton rs r ih =>
    by_cases hty : r.sensor_type = t
    · cases hacc : latestByType rs r.sensor_type with
      | none =>
        have hstep : latestByType (rs ++ [r]) t = some r := by
          rw [latestByType_snoc]
          simp only [latestByTypeStep, hacc]
          rw [if_pos hty.symm]
        constructor
        · intro hnone
          rw [hstep] at hnone
          exact absurd hnone (by simp)
        · intro b hb
          rw [hstep] at hb
          obtain rfl : r = b := by injection hb
          refine ⟨hty, rs, [], rfl, ?_, ?_⟩
          · intro x hx hxt
            exact absurd hxt (ih.1 (hty ▸ hacc) x hx)
          · intro x hx
            exact absurd hx (List.not_mem_nil x)
      | some prev =>
        by_cases hts : prev.timestamp < r.timestamp
        · have hstep : latestByType (rs ++ [r]) t = some r := by
            rw [latestByType_snoc]
            simp only [latestByTypeStep, hacc]
            rw [if_pos hts, if_pos hty.symm]
          constructor
          · intro hnone
            rw [hstep] at hnone
            exact absurd hnone (by simp)
          · intro b hb
            rw [hstep] at hb
            obtain rfl : r = b := by injection hb
            obtain ⟨hprevty, pre, post, hsplit, hbefore, hafter⟩ :=
              ih.2 prev (hty ▸ hacc)
            refine ⟨hty, rs, [], rfl, ?_, ?_⟩
            · intro x hx hxt
              rw [hsplit] at hx
              rcases List.mem_append.mp hx with h | h
              · exact lt_trans (hbefore x h hxt) hts
              · rcases List.mem_cons.mp h with rfl | h2
                · exact hts
                · exact lt_of_le_of_lt (hafter x h2 hxt) hts
            · intro x hx
              exact absurd hx (List.not_mem_nil x)
        · have hstep : latestByType (rs ++ [r]) t = some prev := by
            rw [latestByType_snoc]
            simp only [latestByTypeStep, hacc]
            rw [if_neg hts]
            exact hty ▸ hacc
          constructor
          · intro hnone
            rw [hstep] at hnone
            exact absurd hnone (by simp)
          · intro b hb
            rw [hstep] at hb
            obtain rfl : prev = b := by injection hb
            obtain ⟨hprevty, pre, post, hsplit, hbefore, hafter⟩ :=
              ih.2 prev (hty ▸ hacc)
            refine ⟨hprevty, pre, post ++ [r], ?_, hbefore, ?_⟩
            · rw [hsplit, List.append_assoc]
              rfl
            · intro x hx hxt
              rcases List.mem_append.mp hx with h | h
              · exact hafter x h hxt
              · rw [List.mem_singleton.mp h]
                exact le_of_not_lt hts
    · have hstep : latestByType (rs ++ [r]) t = latestByType rs t := by
        rw [latestByType_snoc]
        cases hacc : latestByType rs r.sensor_type with
        | none =>
          simp only [latestByTypeStep, hacc]
          rw [if_neg fun h => hty h.symm]
        | some prev =>
          simp only [latestByTypeStep, hacc]
          by_cases hts : prev.timestamp < r.timestamp
          · rw [if_pos hts, if_neg fun h => hty h.symm]
          · rw [if_neg hts]
      constructor
      · intro hnone x hx
        rw [hstep] at hnone
        rcases List.mem_append.mp hx with h | h
        · exact ih.1 hnone x h
        · rw [List.mem_singleton.mp h]
          exact hty
      · intro b hb
        rw [hstep] at hb
        obtain ⟨hbt, pre, post, hsplit, hbefore, hafter⟩ := ih.2 b hb
        refine ⟨hbt, pre, post ++ [r], ?_, hbefore, ?_⟩
        · rw [hsplit, List.append_assoc]
          rfl
        · intro x hx hxt
          rcases List.mem_append.mp hx with h | h
          · exact hafter x h hxt
          · rw [List.mem_singleton.mp h] at hxt
            exact absurd hxt hty

/-- C10: the Dashboard per-type grouping holds exactly the sensor types
present in the input, and for each type it selects a reading of that
type whose timestamp is maximal, the earliest-positioned reading winning
timestamp ties (every earlier reading of the type is strictly smaller,
every later one no larger). -/
theorem latestByType_earliest_max (rs : List SensorReading) (t : String) :
    ((latestByType rs t).isSome = true ↔
      t ∈ rs.map SensorReading.sensor_type) ∧
    (∀ b, latestByType rs t = some b →
      b.sensor_type = t ∧
      ∃ pre post, rs = pre ++ b :: post ∧
        (∀ r ∈ pre, r.sensor_type = t → r.timestamp < b.timestamp) ∧
        (∀ r ∈ post, r.sensor_type = t → r.timestamp ≤ b.timestamp)) := by
  have h := latestByType_inv rs t
  refine ⟨⟨?_, ?_⟩, h.2⟩
  · intro hsome
    cases hb : latestByType rs t with
    | none =>
      rw [hb] at hsome
      simp at hsome
    | some b =>
      obtain ⟨hbt, pre, post, hsplit, _, _⟩ := h.2 b hb
      rw [hsplit]
      exact List.mem_map.mpr ⟨b, by simp, hbt⟩
  · intro hmem
    cases hb : latestByType rs t with
    | some b => simp
    | none =>
      obtain ⟨x, hx, hxt⟩ := List.mem_map.mp hmem
      exact absurd hxt (h.1 hb x hx)

/-- C10 witness: on the concrete reading list the temperature slot holds
the earliest of the two tied maximal-timestamp readings. -/
theorem latestByType_earliest_max_witness :
    (⟨1, "temperature", 21, "°C", 100⟩ : SensorReading).sensor_type =
      "temperature" ∧
    ∃ pre post,
      rsDemo = pre ++ (⟨1, "temperature", 21, "°C", 100⟩ :
        SensorReading) :: post ∧
      (∀ r ∈ pre, r.sensor_type = "temperature" →
        r.timestamp < (100 : ℤ)) ∧
      (∀ r ∈ post, r.sensor_type = "temperature" →
        r.timestamp ≤ (100 : ℤ)) :=
  (latestByType_earliest_max rsDemo "temperature").2
    ⟨1, "temperature", 21, "°C", 100⟩ (by decide)

end Breatheasy
